import Mathlib

/-!
Shallow embedding of the MdSadiqMd/Scripts repository.

Part A models the Clerk username-resolution scripts
(`excel_clerk_processor/pkg/fetch_usernames.go` and the `ProcessExcel`
pipeline): the HTTP exchange is represented by an explicit response value,
and the concurrent worker pool is represented by its functional effect
(each enqueued entry yields exactly one result, funneled to the
aggregator).

Part B models the GCS-to-S3 migration scripts (the two `main` variants):
date parsing from object paths, the video-extension filter, the scan loop
that queues eligible objects, and the worker that copies objects, with the
remote stores represented by an explicit environment of oracles.

Part C models the counting-semaphore idiom (`sem := make(chan struct x,
batchSize)`) used to bound in-flight remote operations, as a labelled
transition system on the semaphore occupancy.
-/

/-! ## Part A: Clerk username resolution -/

/-- Models `models.ClerkUser`: the JSON body of a Clerk identity response.
The nested `email_addresses` array of objects is flattened to the list of
its `email_address` fields, which is the only field the code reads. -/
structure ClerkUser where
  firstName : String
  lastName : String
  username : String
  emailAddresses : List String
deriving DecidableEq

/-- Models the outcome of the HTTP exchange in `FetchUserName`: either the
transport fails (`client.Do` error), or a response arrives with a status
code and a body that either unmarshals to a `ClerkUser` or is malformed
(`none`). -/
inductive ClerkResponse where
  | transportError : ClerkResponse
  | reply (status : Nat) (body : Option ClerkUser) : ClerkResponse
deriving DecidableEq

/-- Models `stringTrim` from `fetch_usernames.go`:
`return string([]byte(s))`, a byte round-trip, which in Go returns the
string unchanged.  Embedded as the corresponding round-trip through the
character list. -/
def stringTrim (s : String) : String :=
  String.mk s.data

/-- Models `FetchUserName(userID, secretKey)` with the HTTP exchange made
explicit.  On a non-200 status or a malformed body the function returns an
error; on success it applies the resolution chain of the source: joined
`"first last"` name if non-empty after `stringTrim`, else first email,
else username, else `"User " + userID`. -/
def FetchUserName (userID : String) (resp : ClerkResponse) : Except String String :=
  match resp with
  | ClerkResponse.transportError => Except.error "request failed"
  | ClerkResponse.reply status body =>
    if status ≠ 200 then Except.error ("clerk API returned status " ++ toString status)
    else
      match body with
      | none => Except.error "invalid character in JSON body"
      | some user =>
        let fullName := user.firstName ++ " " ++ user.lastName
        let trimmed := stringTrim fullName
        if trimmed ≠ "" then Except.ok trimmed
        else if 0 < user.emailAddresses.length then Except.ok (user.emailAddresses.headD "")
        else if user.username ≠ "" then Except.ok user.username
        else Except.ok ("User " ++ userID)

/-- Trimming as the specification words it (whitespace removed from both
ends).  This definition follows the spec, not the source, and exists only
to be compared against the source-derived `stringTrim` behaviour. -/
def specTrim (s : String) : String :=
  String.mk (((s.data.dropWhile Char.isWhitespace).reverse.dropWhile Char.isWhitespace).reverse)

/-- Models `models.Entry`: a row number and the user id found in that
row. -/
structure Entry where
  row : Nat
  userID : String
deriving DecidableEq

/-- Models `models.Result`: the row number and resolved display name sent
back to the aggregator. -/
structure Result where
  row : Nat
  userName : String
deriving DecidableEq

/-- Models the entry-collection loop of `ProcessExcel`
(`for r := 1; r < len(rows); r++`), with `r` the index of the current row
in the original sheet: rows with at least `col` cells and a non-empty
(after `stringTrim`) id cell become entries carrying row number `r + 1`. -/
def collectEntriesAux (col : Nat) : Nat → List (List String) → List Entry
  | _, [] => []
  | r, row :: rest =>
    if col ≤ row.length then
      if stringTrim (row.getD (col - 1) "") ≠ "" then
        Entry.mk (r + 1) (stringTrim (row.getD (col - 1) "")) :: collectEntriesAux col (r + 1) rest
      else collectEntriesAux col (r + 1) rest
    else collectEntriesAux col (r + 1) rest

/-- Models the entry collection over the whole sheet: the loop starts at
row index 1, skipping the header row. -/
def collectEntries (rows : List (List String)) (col : Nat) : List Entry :=
  match rows with
  | [] => []
  | _ :: rest => collectEntriesAux col 1 rest

/-- Models the body of the per-entry goroutine in `ProcessExcel`: fetch
the name; on any error substitute the placeholder
`"Unknown User (<id>)"`; send exactly one result carrying the entry's
row. -/
def entryResult (responses : String → ClerkResponse) (e : Entry) : Result :=
  match FetchUserName e.userID (responses e.userID) with
  | Except.ok name => Result.mk e.row name
  | Except.error _ => Result.mk e.row ("Unknown User (" ++ e.userID ++ ")")

/-- Models the fan-out/fan-in of `ProcessExcel`: every enqueued entry is
processed by exactly one goroutine which sends exactly one result into the
results channel; the aggregator drains them after `wg.Wait`.  The funnel
is represented by its functional effect, one result per entry. -/
def processEntries (responses : String → ClerkResponse) (entries : List Entry) : List Result :=
  entries.map (entryResult responses)

/-- Models the file-level effects of `ProcessExcel`: `GetRows` may fail,
and `SaveAs` may fail; both are run-fatal.  Per-item fetch outcomes are
carried separately by the `responses` oracle. -/
structure SheetFile where
  rows : Except String (List (List String))
  saveOk : Bool

/-- Models `ProcessExcel(filePath, secretKey)`: read the rows (fatal on
error), collect entries, resolve each through the worker pool, and save
(fatal on error).  Per-item errors never surface here: they are absorbed
into placeholder results by `entryResult`. -/
def ProcessExcel (io : SheetFile) (responses : String → ClerkResponse) (col : Nat) :
    Except String (List Result) :=
  match io.rows with
  | Except.error e => Except.error e
  | Except.ok rows =>
    if io.saveOk then Except.ok (processEntries responses (collectEntries rows col))
    else Except.error "save failed"

/-! ## Part B: GCS-to-S3 migration -/

/-- Calendar date, the payload of Go `time.Parse("2006-01-02", s)`. -/
structure Date where
  year : Nat
  month : Nat
  day : Nat
deriving DecidableEq

/-- Models Go `time.Time.Before` restricted to the midnight instants
produced by parsing `YYYY-MM-DD` dates: lexicographic comparison. -/
def Date.before (a b : Date) : Bool :=
  if a.year < b.year then true
  else if b.year < a.year then false
  else if a.month < b.month then true
  else if b.month < a.month then false
  else decide (a.day < b.day)

/-- Gregorian leap-year test, as in Go's `time` package. -/
def isLeap (y : Nat) : Bool :=
  y % 4 == 0 && (y % 100 != 0 || y % 400 == 0)

/-- Days in a month, as validated by Go `time.Parse`. -/
def daysIn (y m : Nat) : Nat :=
  if m = 2 then (if isLeap y then 29 else 28)
  else if m = 4 ∨ m = 6 ∨ m = 9 ∨ m = 11 then 30
  else 31

/-- Numeric value of a digit string. -/
def digitsVal (cs : List Char) : Nat :=
  cs.foldl (fun acc c => acc * 10 + (c.toNat - 48)) 0

/-- Models Go `time.Parse("2006-01-02", s)`: exactly four digits, a
hyphen, two digits, a hyphen, two digits, with the month in 1..12 and the
day within the month's length; anything else is a parse error. -/
def parseDate (s : String) : Option Date :=
  match s.data with
  | [y1, y2, y3, y4, s1, m1, m2, s2, d1, d2] =>
    if s1 = '-' ∧ s2 = '-' ∧ [y1, y2, y3, y4, m1, m2, d1, d2].all Char.isDigit = true then
      if 1 ≤ digitsVal [m1, m2] ∧ digitsVal [m1, m2] ≤ 12 ∧ 1 ≤ digitsVal [d1, d2] ∧
          digitsVal [d1, d2] ≤ daysIn (digitsVal [y1, y2, y3, y4]) (digitsVal [m1, m2]) then
        some (Date.mk (digitsVal [y1, y2, y3, y4]) (digitsVal [m1, m2]) (digitsVal [d1, d2]))
      else none
    else none
  | _ => none

/-- Models Go `strings.Split(s, "/")` on the character list: the list of
segments between slashes, keeping empty segments. -/
def splitChars : List Char → List (List Char)
  | [] => [[]]
  | c :: rest =>
    if c = '/' then [] :: splitChars rest
    else
      match splitChars rest with
      | [] => [[c]]
      | p :: ps => (c :: p) :: ps

/-- Models Go `strings.Split(path, "/")`. -/
def splitOnSlash (s : String) : List String :=
  (splitChars s.data).map String.mk

/-- Models Go `strings.HasSuffix(name, "/")`, the directory check of the
scan loop. -/
def endsWithSlash (s : String) : Bool :=
  match s.data.getLast? with
  | some c => c == '/'
  | none => false

/-- Models Go `filepath.Ext`: the suffix starting at the final dot of the
final path element; empty when no dot occurs after the last slash.  The
first argument is the reversed character list of the path, the second the
characters already passed (in original order). -/
def fileExtAux : List Char → List Char → String
  | [], _ => ""
  | c :: rest, acc =>
    if c = '/' then ""
    else if c = '.' then String.mk (c :: acc)
    else fileExtAux rest (c :: acc)

/-- Models Go `filepath.Ext(path)`. -/
def fileExt (path : String) : String :=
  fileExtAux path.data.reverse []

/-- ASCII lower-casing of a string, as `strings.ToLower` acts on the ASCII
extensions compared by `isVideoFile`. -/
def toLowerStr (s : String) : String :=
  String.mk (s.data.map Char.toLower)

/-- Models `isVideoFile(filename, extensions)`: lower-case the extension
of the filename and compare it against the configured allow-list. -/
def isVideoFile (filename : String) (extensions : List String) : Bool :=
  extensions.any (fun v => toLowerStr (fileExt filename) == v)

/-- Models `extractDateFromPath` of the first migration variant
(`part_001`): the date folder is the second path segment
(`port1/2025-07-15/recording_...`). -/
def extractDateFromPathV1 (path : String) : Option Date :=
  if (splitOnSlash path).length < 2 then none
  else parseDate ((splitOnSlash path).getD 1 "")

/-- Models `extractDateFromPath` of the second migration variant
(`part_002`): the date folder is the first path segment
(`2025-09-07/file.mp4`). -/
def extractDateFromPathV2 (path : String) : Option Date :=
  if (splitOnSlash path).length = 0 then none
  else parseDate ((splitOnSlash path).getD 0 "")

/-- Attributes of a listed GCS object: its name (the key) and its creation
time.  The creation instant is represented by its UTC date, which is
exact for all comparisons against the midnight cutoff instant. -/
structure ObjAttrs where
  name : String
  created : Date
deriving DecidableEq

/-- Outcome of the scan loop for one listed object. -/
inductive ScanDecision where
  | skipDir : ScanDecision
  | skipNotVideo : ScanDecision
  | skipByDate : ScanDecision
  | queue : ScanDecision
deriving DecidableEq

/-- Models the filtering of the scan loop in the first variant
(`part_001` main): skip directories, skip non-videos, and on a date-parse
failure skip the object (counted in `skippedByDate`); otherwise compare
the folder date against the cutoff. -/
def scanDecisionV1 (cutoff : Date) (exts : List String) (o : ObjAttrs) : ScanDecision :=
  if endsWithSlash o.name then ScanDecision.skipDir
  else if isVideoFile o.name exts = false then ScanDecision.skipNotVideo
  else
    match extractDateFromPathV1 o.name with
    | none => ScanDecision.skipByDate
    | some d =>
      if Date.before d cutoff then ScanDecision.skipByDate else ScanDecision.queue

/-- Models the filtering of the scan loop in the second variant
(`part_002` main): identical except that on a date-parse failure it falls
back to the object's creation time for the cutoff comparison. -/
def scanDecisionV2 (cutoff : Date) (exts : List String) (o : ObjAttrs) : ScanDecision :=
  if endsWithSlash o.name then ScanDecision.skipDir
  else if isVideoFile o.name exts = false then ScanDecision.skipNotVideo
  else
    match extractDateFromPathV2 o.name with
    | none =>
      if Date.before o.created cutoff then ScanDecision.skipByDate else ScanDecision.queue
    | some d =>
      if Date.before d cutoff then ScanDecision.skipByDate else ScanDecision.queue

/-- Models `FileJob`. -/
structure FileJob where
  gcsPath : String
  relativePath : String
  createdTime : Date
deriving DecidableEq

/-- Models `Stats` of the second variant (the first variant's `Stats`
lacks `skippedDate` but is otherwise identical): atomic counters updated
by the workers. -/
structure Stats where
  totalFiles : Nat
  copiedFiles : Nat
  skippedExisting : Nat
  skippedDate : Nat
  errorFiles : Nat
deriving DecidableEq

/-- The zero-initialised `Stats` (`stats := Stats.mk ... zeroes`). -/
def Stats.init : Stats :=
  Stats.mk 0 0 0 0 0

/-- Oracles for the remote stores seen by a worker: destination existence
(`fileExistsInS3`), source readability (`NewReader`), upload success
(`UploadWithContext`), and object size (bytes transferred on a successful
copy). -/
structure S3Env where
  existsInS3 : String → Bool
  openOk : String → Bool
  uploadOk : String → Bool
  size : String → Nat

/-- Models one iteration of `worker` on a job: bump `totalFiles`; if the
key already exists at the destination bump `skippedExisting` and stop
before touching GCS (zero bytes move); else on a source-open error or an
upload error bump `errorFiles`; else bump `copiedFiles` and transfer the
object's bytes.  Returns the updated stats and the bytes copied. -/
def processJob (env : S3Env) (stats : Stats) (job : FileJob) : Stats × Nat :=
  let stats1 := { stats with totalFiles := stats.totalFiles + 1 }
  if env.existsInS3 job.relativePath then
    ({ stats1 with skippedExisting := stats1.skippedExisting + 1 }, 0)
  else if env.openOk job.gcsPath then
    if env.uploadOk job.relativePath then
      ({ stats1 with copiedFiles := stats1.copiedFiles + 1 }, env.size job.gcsPath)
    else ({ stats1 with errorFiles := stats1.errorFiles + 1 }, 0)
  else ({ stats1 with errorFiles := stats1.errorFiles + 1 }, 0)

/-- One fold step of the worker pool over the job stream, accumulating
stats and total bytes copied. -/
def runJobsStep (env : S3Env) (acc : Stats × Nat) (job : FileJob) : Stats × Nat :=
  let p := processJob env acc.fst job
  (p.fst, acc.snd + p.snd)

/-- Models the worker pool draining the whole job channel: every queued
job is processed exactly once; the interleaving of workers is irrelevant
to the counters because each job updates them exactly once. -/
def runJobs (env : S3Env) (jobs : List FileJob) : Stats × Nat :=
  jobs.foldl (runJobsStep env) (Stats.init, 0)

/-- Accumulator of the scan loop: the queued jobs, `filesQueued`, and the
local `skippedByDate` counter. -/
structure ScanResult where
  jobs : List FileJob
  filesQueued : Nat
  skippedByDate : Nat
deriving DecidableEq

/-- Models one iteration of the second variant's scan loop over a listed
object. -/
def scanStepV2 (cutoff : Date) (exts : List String) (acc : ScanResult) (o : ObjAttrs) :
    ScanResult :=
  match scanDecisionV2 cutoff exts o with
  | ScanDecision.queue =>
    ScanResult.mk (acc.jobs ++ [FileJob.mk o.name o.name o.created]) (acc.filesQueued + 1)
      acc.skippedByDate
  | ScanDecision.skipByDate =>
    ScanResult.mk acc.jobs acc.filesQueued (acc.skippedByDate + 1)
  | _ => acc

/-- Models the second variant's scan loop over the full object listing. -/
def scanObjectsV2 (cutoff : Date) (exts : List String) (objs : List ObjAttrs) : ScanResult :=
  objs.foldl (scanStepV2 cutoff exts) (ScanResult.mk [] 0 0)

/-- Final state of one run of the second migration variant. -/
structure RunOutcome where
  stats : Stats
  bytesCopied : Nat
  filesQueued : Nat
  skippedByDate : Nat
deriving DecidableEq

/-- Models one whole run of the second variant's `main` after client
setup: scan and queue, drain the workers, and report.  The summary line
`Files skipped (before cutoff date)` prints `stats.skippedDate`; the scan
loop's count is the separate local `skippedByDate`. -/
def runMigrationV2 (cutoff : Date) (exts : List String) (env : S3Env) (objs : List ObjAttrs) :
    RunOutcome :=
  let scan := scanObjectsV2 cutoff exts objs
  let r := runJobs env scan.jobs
  RunOutcome.mk r.fst r.snd scan.filesQueued scan.skippedByDate

/-! ## Part C: the counting-semaphore bound -/

/-- Events of the semaphore protecting the fetch goroutines: `acquire` is
the blocking send `sem <- ...` performed before a fetch is dispatched,
`release` the receive `<-sem` performed after the goroutine delivers its
result. -/
inductive PoolEvent where
  | acquire : PoolEvent
  | release : PoolEvent
deriving DecidableEq

/-- Semantics of one semaphore event on the occupancy: a send on a
buffered channel of capacity `limit` can complete only when fewer than
`limit` slots are held (otherwise the sender blocks and no transition
happens); a receive can complete only when a slot is held. -/
def poolStep (limit : Nat) (inFlight : Nat) : PoolEvent → Option Nat
  | PoolEvent.acquire => if inFlight < limit then some (inFlight + 1) else none
  | PoolEvent.release => if 0 < inFlight then some (inFlight - 1) else none

/-- Occupancy reached from an idle semaphore by a sequence of completed
sends and receives; `none` marks an impossible (blocked) sequence. -/
def runPool (limit : Nat) (events : List PoolEvent) : Option Nat :=
  events.foldl (fun acc e => acc.bind (fun k => poolStep limit k e)) (some 0)

/-! ## Helper lemmas -/

/-- The byte round-trip of `stringTrim` returns its argument unchanged. -/
lemma stringTrim_eq (s : String) : stringTrim s = s := by
  cases s
  rfl

/-- The joined `"first last"` name always contains the joining space, so
it is never the empty string. -/
lemma fullName_ne_empty (first last : String) : first ++ " " ++ last ≠ "" := by
  intro h
  have hlen := congrArg String.length h
  rw [String.length_append, String.length_append,
    show (" " : String).length = 1 from rfl, show ("" : String).length = 0 from rfl] at hlen
  omega

/-- The goroutine body preserves the row number of its entry. -/
lemma entryResult_row (responses : String → ClerkResponse) (e : Entry) :
    (entryResult responses e).row = e.row := by
  unfold entryResult
  cases FetchUserName e.userID (responses e.userID) <;> rfl

/-- Every entry collected from row counter `r` onwards carries a row
number strictly greater than `r`. -/
lemma collectEntriesAux_row_gt (col : Nat) :
    ∀ (rows : List (List String)) (r : Nat) (e : Entry),
      e ∈ collectEntriesAux col r rows → r < e.row := by
  intro rows
  induction rows with
  | nil =>
    intro r e he
    simp [collectEntriesAux] at he
  | cons row rest ih =>
    intro r e he
    simp only [collectEntriesAux] at he
    split at he
    · split at he
      · rcases List.mem_cons.mp he with h | h
        · subst h
          exact Nat.lt_succ_self r
        · exact Nat.lt_of_succ_lt (ih (r + 1) e h)
      · exact Nat.lt_of_succ_lt (ih (r + 1) e he)
    · exact Nat.lt_of_succ_lt (ih (r + 1) e he)

/-- The row numbers of the collected entries are strictly increasing. -/
lemma collectEntriesAux_pairwise (col : Nat) :
    ∀ (rows : List (List String)) (r : Nat),
      ((collectEntriesAux col r rows).map Entry.row).Pairwise (· < ·) := by
  intro rows
  induction rows with
  | nil =>
    intro r
    simp [collectEntriesAux]
  | cons row rest ih =>
    intro r
    simp only [collectEntriesAux]
    split
    · split
      · simp only [List.map_cons]
        refine List.Pairwise.cons ?_ (ih (r + 1))
        intro x hx
        obtain ⟨e, he, hex⟩ := List.mem_map.mp hx
        subst hex
        exact collectEntriesAux_row_gt col rest (r + 1) e he
      · exact ih (r + 1)
    · exact ih (r + 1)

/-- Folding the worker over jobs whose keys all exist at the destination
only bumps `totalFiles` and `skippedExisting`, once per job, and copies no
bytes. -/
lemma runJobs_all_existing_aux (env : S3Env) :
    ∀ (jobs : List FileJob) (s : Stats) (b : Nat),
      (∀ j ∈ jobs, env.existsInS3 j.relativePath = true) →
      List.foldl (runJobsStep env) (s, b) jobs =
        (Stats.mk (s.totalFiles + jobs.length) s.copiedFiles
          (s.skippedExisting + jobs.length) s.skippedDate s.errorFiles, b) := by
  intro jobs
  induction jobs with
  | nil =>
    intro s b _
    simp
  | cons j rest ih =>
    intro s b hall
    rw [List.foldl_cons]
    have hj : env.existsInS3 j.relativePath = true := hall j (List.mem_cons_self j rest)
    have hstep : runJobsStep env (s, b) j =
        (Stats.mk (s.totalFiles + 1) s.copiedFiles (s.skippedExisting + 1)
          s.skippedDate s.errorFiles, b) := by
      simp [runJobsStep, processJob, hj]
    rw [hstep, ih _ _ (fun j2 hj2 => hall j2 (List.mem_cons_of_mem j hj2))]
    simp [Stats.mk.injEq, Prod.mk.injEq]
    omega

/-- No branch of the worker touches the `skippedDate` counter. -/
lemma processJob_skippedDate (env : S3Env) (s : Stats) (job : FileJob) :
    (processJob env s job).fst.skippedDate = s.skippedDate := by
  cases henv : env.existsInS3 job.relativePath <;>
    cases hopen : env.openOk job.gcsPath <;>
      cases hup : env.uploadOk job.relativePath <;>
        simp [processJob, henv, hopen, hup]

/-- Folding the worker over any job list preserves the `skippedDate`
counter of the starting stats. -/
lemma runJobs_skippedDate_aux (env : S3Env) :
    ∀ (jobs : List FileJob) (s : Stats) (b : Nat),
      (List.foldl (runJobsStep env) (s, b) jobs).fst.skippedDate = s.skippedDate := by
  intro jobs
  induction jobs with
  | nil =>
    intro s b
    rfl
  | cons j rest ih =>
    intro s b
    rw [List.foldl_cons]
    have h1 := ih (runJobsStep env (s, b) j).fst (runJobsStep env (s, b) j).snd
    rw [show ((runJobsStep env (s, b) j).fst, (runJobsStep env (s, b) j).snd)
        = runJobsStep env (s, b) j from rfl] at h1
    rw [h1]
    exact processJob_skippedDate env s j

/-- A blocked (impossible) semaphore history stays blocked. -/
lemma runPool_none (limit : Nat) :
    ∀ (events : List PoolEvent),
      List.foldl (fun acc e => acc.bind (fun k => poolStep limit k e))
        (none : Option Nat) events = none := by
  intro events
  induction events with
  | nil => rfl
  | cons e rest ih =>
    rw [List.foldl_cons]
    exact ih

/-- Starting at or below the capacity, every occupancy reached by
completed semaphore operations stays at or below the capacity. -/
lemma runPool_le_aux (limit : Nat) :
    ∀ (events : List PoolEvent) (start k : Nat), start ≤ limit →
      List.foldl (fun acc e => acc.bind (fun k => poolStep limit k e))
        (some start) events = some k →
      k ≤ limit := by
  intro events
  induction events with
  | nil =>
    intro start k hs h
    simp at h
    omega
  | cons e rest ih =>
    intro start k hs h
    rw [List.foldl_cons,
      show (some start).bind (fun k => poolStep limit k e) = poolStep limit start e from rfl] at h
    cases e with
    | acquire =>
      by_cases hlt : start < limit
      · rw [show poolStep limit start PoolEvent.acquire = some (start + 1) from by
          simp [poolStep, hlt]] at h
        exact ih (start + 1) k (by omega) h
      · rw [show poolStep limit start PoolEvent.acquire = none from by
          simp [poolStep, hlt]] at h
        rw [runPool_none limit rest] at h
        cases h
    | release =>
      by_cases hpos : 0 < start
      · rw [show poolStep limit start PoolEvent.release = some (start - 1) from by
          simp [poolStep, hpos]] at h
        exact ih (start - 1) k (by omega) h
      · rw [show poolStep limit start PoolEvent.release = none from by
          simp [poolStep, hpos]] at h
        rw [runPool_none limit rest] at h
        cases h

/-! ## Claim theorems -/

/-- C1 (code bug evidence): on a 200 response whose first and last name
are both empty, `FetchUserName` returns the single-space string `" "` —
the joined name `"" ++ " " ++ ""` survives `stringTrim` untrimmed — and
never the first email, the username handle, or `"User " + identifier`
that the claim requires. -/
theorem fetchUserName_empty_name_returns_space :
    FetchUserName "user_1" (ClerkResponse.reply 200
        (some (ClerkUser.mk "" "" "handle" ["x@y.com"]))) = Except.ok " " ∧
    (" " : String) ≠ "x@y.com" ∧
    (" " : String) ≠ "handle" ∧
    (" " : String) ≠ "User " ++ "user_1" := by
  refine ⟨rfl, by decide, by decide, by decide⟩

/-- C2 (code bug evidence): on a 200 response with non-empty first and
last names, `FetchUserName` returns the joined name exactly as built, with
no whitespace trimming: for first name `" John"` and last name `"Doe"` it
returns `" John Doe"`, while the whitespace-trimmed concatenation the
claim requires is `"John Doe"`. -/
theorem fetchUserName_no_trimming :
    FetchUserName "user_2" (ClerkResponse.reply 200
        (some (ClerkUser.mk " John" "Doe" "" []))) = Except.ok " John Doe" ∧
    specTrim (" John" ++ " " ++ "Doe") = "John Doe" ∧
    (" John Doe" : String) ≠ "John Doe" := by
  refine ⟨rfl, rfl, by decide⟩

/-- C3: `stringTrim` is the identity on every string, so a whitespace-only
cell passes the non-empty identifier check, and the joined
`"first last"` name — which always contains the joining space — is never
empty after `stringTrim`. -/
theorem stringTrim_identity :
    (∀ s : String, stringTrim s = s) ∧
    stringTrim "   " ≠ "" ∧
    (∀ first last : String, stringTrim (first ++ " " ++ last) ≠ "") := by
  refine ⟨stringTrim_eq, by decide, fun first last => ?_⟩
  rw [stringTrim_eq]
  exact fullName_ne_empty first last

/-- C4 counterexample: in the second migration variant, the listed video
object `"notadate/video.mp4"` has no parsable `YYYY-MM-DD` path segment,
yet the enumerator queues it (its creation time is not before the cutoff),
contradicting the claim that every such object is excluded from the
queued work items. -/
theorem scanV2_unparsable_date_queued :
    extractDateFromPathV2 "notadate/video.mp4" = none ∧
    scanDecisionV2 (Date.mk 2025 9 7) [".mp4"]
      (ObjAttrs.mk "notadate/video.mp4" (Date.mk 2025 9 7)) = ScanDecision.queue := by
  exact ⟨rfl, rfl⟩

/-- C4 (amended): for a listed video object (not a directory) whose date
segment cannot be parsed, the first variant always excludes it from the
queue, while the second variant falls back to the object's creation time
and excludes it exactly when that time is before the cutoff; neither
variant raises a fatal error (the scan decision is total). -/
theorem unparsable_date_policy (cutoff : Date) (exts : List String) (o1 o2 : ObjAttrs)
    (h1dir : endsWithSlash o1.name = false) (h1vid : isVideoFile o1.name exts = true)
    (h1 : extractDateFromPathV1 o1.name = none)
    (h2dir : endsWithSlash o2.name = false) (h2vid : isVideoFile o2.name exts = true)
    (h2 : extractDateFromPathV2 o2.name = none) :
    scanDecisionV1 cutoff exts o1 = ScanDecision.skipByDate ∧
    scanDecisionV2 cutoff exts o2 =
      (if Date.before o2.created cutoff then ScanDecision.skipByDate
       else ScanDecision.queue) := by
  constructor
  · simp [scanDecisionV1, h1dir, h1vid, h1]
  · simp [scanDecisionV2, h2dir, h2vid, h2]

/-- Witness for the amended C4 at concrete inputs. -/
theorem unparsable_date_policy_witness :
    scanDecisionV1 (Date.mk 2025 9 7) [".mp4"]
      (ObjAttrs.mk "port1/notadate/r.mp4" (Date.mk 2025 9 6)) = ScanDecision.skipByDate ∧
    scanDecisionV2 (Date.mk 2025 9 7) [".mp4"]
      (ObjAttrs.mk "notadate/r.mp4" (Date.mk 2025 9 6)) =
      (if Date.before (ObjAttrs.mk "notadate/r.mp4" (Date.mk 2025 9 6)).created
          (Date.mk 2025 9 7) then ScanDecision.skipByDate
       else ScanDecision.queue) :=
  unparsable_date_policy (Date.mk 2025 9 7) [".mp4"]
    (ObjAttrs.mk "port1/notadate/r.mp4" (Date.mk 2025 9 6))
    (ObjAttrs.mk "notadate/r.mp4" (Date.mk 2025 9 6))
    (by decide) (by decide) (by decide) (by decide) (by decide) (by decide)

/-- C5: for a listed video object (not a directory) whose path segment
parses to a date, both migration variants queue it exactly when the date
is not strictly before the cutoff; since `Date.before` is irreflexive, an
object dated exactly at the cutoff is queued and one dated strictly
earlier is skipped — the cutoff is an inclusive lower bound. -/
theorem cutoff_inclusive_boundary (cutoff : Date) (exts : List String) (o1 o2 : ObjAttrs)
    (d1 d2 : Date)
    (h1dir : endsWithSlash o1.name = false) (h1vid : isVideoFile o1.name exts = true)
    (h1 : extractDateFromPathV1 o1.name = some d1)
    (h2dir : endsWithSlash o2.name = false) (h2vid : isVideoFile o2.name exts = true)
    (h2 : extractDateFromPathV2 o2.name = some d2) :
    scanDecisionV1 cutoff exts o1 =
      (if Date.before d1 cutoff then ScanDecision.skipByDate else ScanDecision.queue) ∧
    scanDecisionV2 cutoff exts o2 =
      (if Date.before d2 cutoff then ScanDecision.skipByDate else ScanDecision.queue) ∧
    Date.before cutoff cutoff = false := by
  refine ⟨?_, ?_, ?_⟩
  · simp [scanDecisionV1, h1dir, h1vid, h1]
  · simp [scanDecisionV2, h2dir, h2vid, h2]
  · simp [Date.before]

/-- Witness for C5 at concrete inputs: an object dated exactly at the
cutoff (first variant) is queued, one dated a day earlier (second
variant) is skipped. -/
theorem cutoff_inclusive_boundary_witness :
    scanDecisionV1 (Date.mk 2025 9 7) [".mp4"]
      (ObjAttrs.mk "port1/2025-09-07/r.mp4" (Date.mk 2025 9 7)) =
      (if Date.before (Date.mk 2025 9 7) (Date.mk 2025 9 7) then ScanDecision.skipByDate
       else ScanDecision.queue) ∧
    scanDecisionV2 (Date.mk 2025 9 7) [".mp4"]
      (ObjAttrs.mk "2025-09-06/r.mp4" (Date.mk 2025 9 6)) =
      (if Date.before (Date.mk 2025 9 6) (Date.mk 2025 9 7) then ScanDecision.skipByDate
       else ScanDecision.queue) ∧
    Date.before (Date.mk 2025 9 7) (Date.mk 2025 9 7) = false :=
  cutoff_inclusive_boundary (Date.mk 2025 9 7) [".mp4"]
    (ObjAttrs.mk "port1/2025-09-07/r.mp4" (Date.mk 2025 9 7))
    (ObjAttrs.mk "2025-09-06/r.mp4" (Date.mk 2025 9 6))
    (Date.mk 2025 9 7) (Date.mk 2025 9 6)
    (by decide) (by decide) (by decide) (by decide) (by decide) (by decide)

/-- C6 counterexample: on a job whose key already exists at the
destination, the worker does not increment only the skipped-existing
counter: it also increments the total-files counter (so the resulting
stats differ from the state in which only `skippedExisting` changed),
although indeed zero bytes are copied. -/
theorem worker_skip_also_increments_total :
    (S3Env.mk (fun _ => true) (fun _ => true) (fun _ => true) (fun _ => 0)).existsInS3
      "2025-09-07/a.mp4" = true ∧
    processJob (S3Env.mk (fun _ => true) (fun _ => true) (fun _ => true) (fun _ => 0))
        Stats.init (FileJob.mk "2025-09-07/a.mp4" "2025-09-07/a.mp4" (Date.mk 2025 9 7)) ≠
      (Stats.mk 0 0 1 0 0, 0) ∧
    (processJob (S3Env.mk (fun _ => true) (fun _ => true) (fun _ => true) (fun _ => 0))
        Stats.init (FileJob.mk "2025-09-07/a.mp4" "2025-09-07/a.mp4"
          (Date.mk 2025 9 7))).fst.totalFiles = 1 ∧
    (processJob (S3Env.mk (fun _ => true) (fun _ => true) (fun _ => true) (fun _ => 0))
        Stats.init (FileJob.mk "2025-09-07/a.mp4" "2025-09-07/a.mp4"
          (Date.mk 2025 9 7))).snd = 0 := by
  refine ⟨rfl, by decide, rfl, rfl⟩

/-- C6 (amended): on a job whose key exists at the destination the worker
short-circuits with zero bytes copied, incrementing exactly the
total-files and skipped-existing counters; consequently a re-run over a
job list whose every key already exists at the destination copies zero
bytes and ends with a skipped-existing count equal to the number of
jobs (and no copies and no errors). -/
theorem worker_skip_existing_idempotent (env : S3Env) (stats : Stats) (job : FileJob)
    (jobs : List FileJob)
    (h : env.existsInS3 job.relativePath = true)
    (hall : ∀ j ∈ jobs, env.existsInS3 j.relativePath = true) :
    processJob env stats job =
      (Stats.mk (stats.totalFiles + 1) stats.copiedFiles (stats.skippedExisting + 1)
        stats.skippedDate stats.errorFiles, 0) ∧
    runJobs env jobs = (Stats.mk jobs.length 0 jobs.length 0 0, 0) := by
  constructor
  · simp [processJob, h]
  · have haux := runJobs_all_existing_aux env jobs Stats.init 0 hall
    simpa [runJobs, Stats.init] using haux

/-- Witness for the amended C6 at concrete inputs. -/
theorem worker_skip_existing_idempotent_witness :
    processJob (S3Env.mk (fun _ => true) (fun _ => false) (fun _ => false) (fun _ => 0))
        Stats.init (FileJob.mk "a.mp4" "a.mp4" (Date.mk 2025 9 7)) =
      (Stats.mk 1 0 1 0 0, 0) ∧
    runJobs (S3Env.mk (fun _ => true) (fun _ => false) (fun _ => false) (fun _ => 0))
        [FileJob.mk "a.mp4" "a.mp4" (Date.mk 2025 9 7),
          FileJob.mk "b.mp4" "b.mp4" (Date.mk 2025 9 8)] =
      (Stats.mk 2 0 2 0 0, 0) :=
  worker_skip_existing_idempotent
    (S3Env.mk (fun _ => true) (fun _ => false) (fun _ => false) (fun _ => 0))
    Stats.init (FileJob.mk "a.mp4" "a.mp4" (Date.mk 2025 9 7))
    [FileJob.mk "a.mp4" "a.mp4" (Date.mk 2025 9 7),
      FileJob.mk "b.mp4" "b.mp4" (Date.mk 2025 9 8)]
    rfl (by decide)

/-- C7: when the fetch for a collected entry fails (transport failure,
non-200 status, or malformed body all surface as `Except.error`), the
recorded result for that row is exactly the placeholder
`"Unknown User (<identifier>)"`, `ProcessExcel` still returns success,
and every sibling entry still produces its result (the result list keeps
one result per collected entry). -/
theorem per_item_error_isolated (io : SheetFile) (responses : String → ClerkResponse)
    (rows : List (List String)) (col : Nat) (e : Entry) (msg : String)
    (hrows : io.rows = Except.ok rows) (hsave : io.saveOk = true)
    (he : e ∈ collectEntries rows col)
    (herr : FetchUserName e.userID (responses e.userID) = Except.error msg) :
    ProcessExcel io responses col =
      Except.ok (processEntries responses (collectEntries rows col)) ∧
    Result.mk e.row ("Unknown User (" ++ e.userID ++ ")") ∈
      processEntries responses (collectEntries rows col) ∧
    (processEntries responses (collectEntries rows col)).length =
      (collectEntries rows col).length := by
  refine ⟨by simp [ProcessExcel, hrows, hsave], ?_, by simp [processEntries]⟩
  have hres : entryResult responses e = Result.mk e.row ("Unknown User (" ++ e.userID ++ ")") := by
    simp [entryResult, herr]
  rw [← hres]
  exact List.mem_map_of_mem (entryResult responses) he

/-- Witness for C7: a sheet with one header row and one data row whose
fetch fails with a transport error. -/
theorem per_item_error_isolated_witness :
    ProcessExcel
        (SheetFile.mk (Except.ok [["h1", "h2", "h3", "h4", "h5"],
          ["a", "b", "c", "d", "uid_1"]]) true)
        (fun _ => ClerkResponse.transportError) 5 =
      Except.ok (processEntries (fun _ => ClerkResponse.transportError)
        (collectEntries [["h1", "h2", "h3", "h4", "h5"],
          ["a", "b", "c", "d", "uid_1"]] 5)) ∧
    Result.mk 2 ("Unknown User (" ++ "uid_1" ++ ")") ∈
      processEntries (fun _ => ClerkResponse.transportError)
        (collectEntries [["h1", "h2", "h3", "h4", "h5"],
          ["a", "b", "c", "d", "uid_1"]] 5) ∧
    (processEntries (fun _ => ClerkResponse.transportError)
        (collectEntries [["h1", "h2", "h3", "h4", "h5"],
          ["a", "b", "c", "d", "uid_1"]] 5)).length =
      (collectEntries [["h1", "h2", "h3", "h4", "h5"],
        ["a", "b", "c", "d", "uid_1"]] 5).length :=
  per_item_error_isolated
    (SheetFile.mk (Except.ok [["h1", "h2", "h3", "h4", "h5"],
      ["a", "b", "c", "d", "uid_1"]]) true)
    (fun _ => ClerkResponse.transportError)
    [["h1", "h2", "h3", "h4", "h5"], ["a", "b", "c", "d", "uid_1"]] 5
    (Entry.mk 2 "uid_1") "request failed" rfl rfl (by decide) rfl

/-- C8: for every run, the results applied by the aggregator are exactly
one per enqueued entry — their count equals the enqueued count, the i-th
result carries the i-th entry's row, and the entries' rows are strictly
increasing (so no result is duplicated and none is dropped). -/
theorem one_result_per_entry (responses : String → ClerkResponse)
    (rows : List (List String)) (col : Nat) :
    (processEntries responses (collectEntries rows col)).length =
      (collectEntries rows col).length ∧
    (processEntries responses (collectEntries rows col)).map Result.row =
      (collectEntries rows col).map Entry.row ∧
    ((collectEntries rows col).map Entry.row).Pairwise (· < ·) := by
  refine ⟨by simp [processEntries], ?_, ?_⟩
  · unfold processEntries
    rw [List.map_map]
    have hfun : Result.row ∘ entryResult responses = Entry.row := by
      funext e
      exact entryResult_row responses e
    rw [hfun]
  · cases rows with
    | nil => simp [collectEntries]
    | cons hd tl => exact collectEntriesAux_pairwise col tl 1

/-- C9: in the second migration variant, no operation ever increments the
`skippedDate` counter of `Stats`, so every run reports
`Files skipped (before cutoff date): 0` — even on a run in which the date
filter actually excluded an object, which is counted only by the local
`skippedByDate` variable. -/
theorem skippedDate_counter_never_incremented (cutoff : Date) (exts : List String)
    (env : S3Env) (objs : List ObjAttrs) :
    (runMigrationV2 cutoff exts env objs).stats.skippedDate = 0 ∧
    (runMigrationV2 (Date.mk 2025 9 7) [".mp4"]
        (S3Env.mk (fun _ => false) (fun _ => true) (fun _ => true) (fun _ => 5))
        [ObjAttrs.mk "2025-09-06/a.mp4" (Date.mk 2025 9 6)]).skippedByDate = 1 := by
  constructor
  · have haux := runJobs_skippedDate_aux env (scanObjectsV2 cutoff exts objs).jobs Stats.init 0
    simpa [runMigrationV2, runJobs, Stats.init] using haux
  · rfl

/-- C10: the counting semaphore of capacity `limit` guarding each per-item
remote operation never holds more than `limit` slots: every occupancy
reachable from the idle state by completed sends and receives is at most
`limit`, so at most `limit` remote operations are in flight at once. -/
theorem pool_inflight_bounded (limit : Nat) (events : List PoolEvent) (k : Nat)
    (h : runPool limit events = some k) : k ≤ limit := by
  unfold runPool at h
  exact runPool_le_aux limit events 0 k (Nat.zero_le limit) h

/-- Witness for C10 at a concrete trace: two dispatches and one
completion under capacity 10 leave one operation in flight. -/
theorem pool_inflight_bounded_witness :
    runPool 10 [PoolEvent.acquire, PoolEvent.acquire, PoolEvent.release] = some 1 ∧
    1 ≤ 10 :=
  ⟨rfl, pool_inflight_bounded 10 [PoolEvent.acquire, PoolEvent.acquire, PoolEvent.release]
    1 rfl⟩
